import Mathlib

/-!
Verification development for `google_batch_geocoder.py`.

The embedding models the two units of the program:

* `geocode_address` — the address resolver with its retry policy and
  candidate-selection loop (source lines 116-183).  The geopy call
  `geo_locator.geocode(line_address, exactly_one=False, components=...)` is
  modelled by a function `service : Nat → ServiceResponse` giving, for each
  value of `retry_counter` (the attempt number, starting at 1), either the
  candidate list the service returned on that attempt or the exception it
  raised.  The exception classes of the three `except` clauses are mirrored
  by the constructors of `ServiceResponse`.

* `process_addresses_from_csv` — the CSV pipeline (source lines 57-113).
  The csv reader tokenisation of a data line into cells is abstracted: a
  data row is given as the list of its raw cell texts, and the per-cell
  reading of the `ga` dialect (skipinitialspace, QUOTE_ALL, doublequote) is
  modelled by `parseField`.  The writer side of `QUOTE_ALL` is `writeField`.

Numeric latitude/longitude values are only ever copied by the program (never
computed with), so they are modelled as `Int`; the failure marker uses the
literal 0 exactly as the source does.
-/

/-- One entry of the raw `address_components` payload of a google candidate:
a long-form and a short-form name (source lines 130-132). -/
structure AddressComponent where
  long_name : String
  short_name : String
deriving DecidableEq

/-- One geocoding result returned by the service.  `latitude`/`longitude`
are the geopy attributes, `formatted_address` and `location_type` stand for
`raw[ formatted_address ]` and `raw[ geometry ][ location_type ]`, and
`address_components` for `raw.get( address_components , [])`.  The raw dict
of a google candidate always carries the `formatted_address` key, so the
truthiness test `if location.raw:` of line 128 is always true and is not
modelled separately. -/
structure Candidate where
  latitude : Int
  longitude : Int
  formatted_address : String
  location_type : String
  address_components : List AddressComponent
deriving DecidableEq

/-- The dict built for one query (lines 140-147 and the failure dicts of the
except clauses): keys Lat, Long, Error, formatted_address, location_type. -/
structure LocationResult where
  Lat : Int
  Long : Int
  Error : String
  formatted_address : String
  location_type : String
deriving DecidableEq

/-- Failure marker dict (lines 144-147, 155, 166-167, 174-175). -/
def failureResult (msg : String) : LocationResult :=
  { Lat := 0, Long := 0, Error := msg, formatted_address := "", location_type := "" }

/-- Success dict built from the selected candidate (lines 140-142). -/
def successResult (c : Candidate) : LocationResult :=
  { Lat := c.latitude, Long := c.longitude, Error := "",
    formatted_address := c.formatted_address, location_type := c.location_type }

/-- Outcome of one call of the geopy geocode method: an ordered candidate
list, or one of the exceptions the program distinguishes.  `valueError`,
`quotaExceeded`, `configurationError` and `parseError` are the classes of
the first except clause (line 150); `timedOut` and `queryError` those of the
second (line 158); `otherError` is any other exception reaching the bare
`except BaseException` clause (line 169).  The carried string is the message
used for the Error column (`error.message` when present, else `str(error)`). -/
inductive ServiceResponse where
  | ok (results : List Candidate)
  | valueError (msg : String)
  | quotaExceeded (msg : String)
  | configurationError (msg : String)
  | parseError (msg : String)
  | timedOut (msg : String)
  | queryError (msg : String)
  | otherError (msg : String)
deriving DecidableEq

/-- Message of a response that raises, `none` for a candidate list. -/
def respErrMsg : ServiceResponse → Option String
  | .ok _ => none
  | .valueError m | .quotaExceeded m | .configurationError m | .parseError m => some m
  | .timedOut m | .queryError m | .otherError m => some m

/-- Message of a response caught by the non-retried clause of line 150. -/
def nonRetryableMsg : ServiceResponse → Option String
  | .valueError m | .quotaExceeded m | .configurationError m | .parseError m => some m
  | _ => none

/-- True for the responses that land in one of the two retrying except
clauses (lines 158 and 169). -/
def retryable : ServiceResponse → Bool
  | .timedOut _ | .queryError _ | .otherError _ => true
  | _ => false

/-- Message of the TypeError raised by `for locality in localities` when the
default `localities=None` is iterated (line 133).  The exact Python text is
immaterial to the program; a fixed non-empty marker string models it. -/
def candidateMatchError : String := "TypeError: NoneType object is not iterable"

/-- Test of line 134: `locality in [long_name, short_name]`. -/
def componentMatches (localities : List String) (address_component : AddressComponent) : Bool :=
  localities.any fun locality =>
    locality == address_component.long_name || locality == address_component.short_name

/-- Component scan of lines 129-136 for one non-first candidate: the nested
loops set `selected_location` to this candidate iff some component name
matches some locality (the inner `break` only leaves the locality loop, and
re-assignment is idempotent, so the net effect is an any-test).  Iterating
`localities` when it is `none` raises a TypeError as soon as the component
loop body runs, i.e. exactly when `address_components` is non-empty. -/
def candidateMatches (localities : Option (List String)) (location : Candidate) :
    Except String Bool :=
  match location.address_components, localities with
  | [], _ => .ok false
  | _ :: _, none => .error candidateMatchError
  | comps, some ls => .ok (comps.any (componentMatches ls))

/-- Candidate loop of lines 121-136.  The first candidate becomes the
default selection (`if not selected_location`); every later candidate
overwrites the selection when it matches.  The guard `if location_results:`
of line 122 is subsumed by the loop on an empty list doing nothing. -/
def selectLocation (localities : Option (List String)) :
    List Candidate → Option Candidate → Except String (Option Candidate)
  | [], selected_location => .ok selected_location
  | location :: rest, selected_location =>
    match selected_location with
    | none => selectLocation localities rest (some location)
    | some _ =>
      match candidateMatches localities location with
      | .error e => .error e
      | .ok true => selectLocation localities rest (some location)
      | .ok false => selectLocation localities rest selected_location

/-- One console trace block (the five print statements of lines 177-181). -/
structure TraceEntry where
  address_line : String
  geocoded_address : String
  loc_type : String
  lat : Int
  lng : Int
deriving DecidableEq

/-- Observable behaviour of one `geocode_address` call: the returned dict,
the number of service calls made (= recursion depth), the number of
`time.sleep(2)` executions, and the emitted trace blocks in order. -/
structure GeocodeRun where
  result : LocationResult
  calls : Nat
  sleeps : Nat
  traces : List TraceEntry
deriving DecidableEq

/-- Trace block printed for a finished resolution (lines 177-181). -/
def traceOf (line_address : String) (r : LocationResult) : TraceEntry :=
  { address_line := line_address, geocoded_address := r.formatted_address,
    loc_type := r.location_type, lat := r.Lat, lng := r.Long }

/-- A frame that does not recurse: one service call, no sleep, and the
fall-through to the prints of lines 177-181 before returning. -/
def attemptDone (line_address : String) (r : LocationResult) : GeocodeRun :=
  { result := r, calls := 1, sleeps := 0, traces := [traceOf line_address r] }

/-- Retry ceiling (line 30). -/
def RETRY_COUNTER_CONST : Nat := 5

/-- Shallow embedding of `geocode_address` (lines 116-183).  Note that the
two retrying except clauses `return` the recursive call directly, so the
prints of lines 177-181 are skipped in the recursing frame: only the final
frame traces.  The selection loop runs inside the `try`, so the TypeError of
`candidateMatches` (possible only when `localities` is `none`) is caught by
the bare `except BaseException` clause, which sleeps 2 seconds and retries. -/
def geocode_address (service : Nat → ServiceResponse) (line_address : String)
    (localities : Option (List String)) (retry_counter : Nat) : GeocodeRun :=
  match service retry_counter with
  | .ok location_results =>
    match selectLocation localities location_results none with
    | .ok (some selected_location) =>
        attemptDone line_address (successResult selected_location)
    | .ok none =>
        attemptDone line_address
          (failureResult "None location found, please verify your address line")
    | .error e =>
        if _h : retry_counter < RETRY_COUNTER_CONST then
          let sub := geocode_address service line_address localities (retry_counter + 1)
          { sub with calls := sub.calls + 1, sleeps := sub.sleeps + 1 }
        else
          attemptDone line_address (failureResult e)
  | .valueError m | .quotaExceeded m | .configurationError m | .parseError m =>
        attemptDone line_address (failureResult m)
  | .timedOut m | .queryError m =>
        if _h : retry_counter < RETRY_COUNTER_CONST then
          let sub := geocode_address service line_address localities (retry_counter + 1)
          { sub with calls := sub.calls + 1 }
        else
          attemptDone line_address (failureResult m)
  | .otherError m =>
        if _h : retry_counter < RETRY_COUNTER_CONST then
          let sub := geocode_address service line_address localities (retry_counter + 1)
          { sub with calls := sub.calls + 1, sleeps := sub.sleeps + 1 }
        else
          attemptDone line_address (failureResult m)
termination_by RETRY_COUNTER_CONST - retry_counter
decreasing_by all_goals omega

/-! Step lemmas: one unfolding of `geocode_address` per shape of the
response received on the current attempt. -/

/-- Successful attempt with a selected candidate. -/
theorem geocode_step_ok_some {s : Nat → ServiceResponse} {rc : Nat} {results : List Candidate}
    {loc : Option (List String)} {c : Candidate} (la : String)
    (hs : s rc = .ok results) (hsel : selectLocation loc results none = .ok (some c)) :
    geocode_address s la loc rc = attemptDone la (successResult c) := by
  rw [geocode_address, hs]
  dsimp only
  rw [hsel]

/-- Successful attempt with zero candidates. -/
theorem geocode_step_ok_none {s : Nat → ServiceResponse} {rc : Nat} {results : List Candidate}
    {loc : Option (List String)} (la : String)
    (hs : s rc = .ok results) (hsel : selectLocation loc results none = .ok none) :
    geocode_address s la loc rc =
      attemptDone la (failureResult "None location found, please verify your address line") := by
  rw [geocode_address, hs]
  dsimp only
  rw [hsel]

/-- Successful service call whose selection loop raises, below the ceiling:
caught by the bare except clause, sleep and retry. -/
theorem geocode_step_ok_error_retry {s : Nat → ServiceResponse} {rc : Nat}
    {results : List Candidate} {loc : Option (List String)} {e : String} (la : String)
    (hs : s rc = .ok results) (hsel : selectLocation loc results none = .error e)
    (h : rc < RETRY_COUNTER_CONST) :
    geocode_address s la loc rc =
      { geocode_address s la loc (rc + 1) with
        calls := (geocode_address s la loc (rc + 1)).calls + 1,
        sleeps := (geocode_address s la loc (rc + 1)).sleeps + 1 } := by
  rw [geocode_address, hs]
  dsimp only
  rw [hsel]
  dsimp only
  rw [dif_pos h]

/-- Successful service call whose selection loop raises, at the ceiling. -/
theorem geocode_step_ok_error_stop {s : Nat → ServiceResponse} {rc : Nat}
    {results : List Candidate} {loc : Option (List String)} {e : String} (la : String)
    (hs : s rc = .ok results) (hsel : selectLocation loc results none = .error e)
    (h : ¬ rc < RETRY_COUNTER_CONST) :
    geocode_address s la loc rc = attemptDone la (failureResult e) := by
  rw [geocode_address, hs]
  dsimp only
  rw [hsel]
  dsimp only
  rw [dif_neg h]

/-- Non-retried exception classes (first except clause): immediate failure. -/
theorem geocode_step_non_retryable {s : Nat → ServiceResponse} {rc : Nat} {m : String}
    {loc : Option (List String)} (la : String)
    (hs : nonRetryableMsg (s rc) = some m) :
    geocode_address s la loc rc = attemptDone la (failureResult m) := by
  cases h : s rc <;> rw [h] at hs <;> simp [nonRetryableMsg] at hs
  all_goals (subst hs; rw [geocode_address, h])

/-- Timeout / malformed-query exception below the ceiling: plain retry. -/
theorem geocode_step_timeout_retry {s : Nat → ServiceResponse} {rc : Nat}
    {loc : Option (List String)} {m : String} (la : String)
    (hs : s rc = .timedOut m ∨ s rc = .queryError m) (h : rc < RETRY_COUNTER_CONST) :
    geocode_address s la loc rc =
      { geocode_address s la loc (rc + 1) with
        calls := (geocode_address s la loc (rc + 1)).calls + 1 } := by
  rcases hs with hs | hs <;> rw [geocode_address, hs] <;> dsimp only <;> rw [dif_pos h]

/-- Timeout / malformed-query exception at the ceiling: failure with the
message of this last error. -/
theorem geocode_step_timeout_stop {s : Nat → ServiceResponse} {rc : Nat}
    {loc : Option (List String)} {m : String} (la : String)
    (hs : s rc = .timedOut m ∨ s rc = .queryError m) (h : ¬ rc < RETRY_COUNTER_CONST) :
    geocode_address s la loc rc = attemptDone la (failureResult m) := by
  rcases hs with hs | hs <;> rw [geocode_address, hs] <;> dsimp only <;> rw [dif_neg h]

/-- Unclassified exception below the ceiling: sleep 2 and retry. -/
theorem geocode_step_other_retry {s : Nat → ServiceResponse} {rc : Nat}
    {loc : Option (List String)} {m : String} (la : String)
    (hs : s rc = .otherError m) (h : rc < RETRY_COUNTER_CONST) :
    geocode_address s la loc rc =
      { geocode_address s la loc (rc + 1) with
        calls := (geocode_address s la loc (rc + 1)).calls + 1,
        sleeps := (geocode_address s la loc (rc + 1)).sleeps + 1 } := by
  rw [geocode_address, hs]
  dsimp only
  rw [dif_pos h]

/-- Unclassified exception at the ceiling: failure with its message. -/
theorem geocode_step_other_stop {s : Nat → ServiceResponse} {rc : Nat}
    {loc : Option (List String)} {m : String} (la : String)
    (hs : s rc = .otherError m) (h : ¬ rc < RETRY_COUNTER_CONST) :
    geocode_address s la loc rc = attemptDone la (failureResult m) := by
  rw [geocode_address, hs]
  dsimp only
  rw [dif_neg h]

/-! Properties of the candidate-selection loop. -/

/-- Hint test for one candidate: some raw address component has a long-form
or short-form name equal to some hint. -/
def matchesAnyHint (ls : List String) (c : Candidate) : Bool :=
  c.address_components.any (componentMatches ls)

/-- With an actual hint list the component scan cannot raise and computes
the any-test. -/
theorem candidateMatches_some (ls : List String) (c : Candidate) :
    candidateMatches (some ls) c = .ok (matchesAnyHint ls c) := by
  cases h : c.address_components <;> simp [candidateMatches, matchesAnyHint, h]

/-- The component scan only ever raises the TypeError marker. -/
theorem candidateMatches_error_eq {loc : Option (List String)} {c : Candidate} {e : String}
    (h : candidateMatches loc c = .error e) : e = candidateMatchError := by
  cases hc : c.address_components <;> cases loc <;> simp [candidateMatches, hc] at h
  all_goals exact h.symm

/-- Selection described by the spec: the last candidate after the first one
that matches a hint wins; absent any match the first candidate stays. -/
def specSelectedCandidate (ls : List String) (first : Candidate) (rest : List Candidate) :
    Candidate :=
  ((rest.filter (matchesAnyHint ls)).getLast?).getD first

theorem getLast?_getD_cons (l : List Candidate) (c d : Candidate) :
    ((c :: l).getLast?).getD d = (l.getLast?).getD c := by
  cases l with
  | nil => rfl
  | cons x xs =>
    rw [List.getLast?_cons_cons]
    cases hx : (x :: xs).getLast? with
    | none => simp [List.getLast?_eq_none_iff] at hx
    | some a => rfl

theorem selectLocation_some_acc (ls : List String) (rest : List Candidate) (sel : Candidate) :
    selectLocation (some ls) rest (some sel) =
      .ok (some (((rest.filter (matchesAnyHint ls)).getLast?).getD sel)) := by
  induction rest generalizing sel with
  | nil => rfl
  | cons c cs ih =>
    simp only [selectLocation, candidateMatches_some]
    cases h : matchesAnyHint ls c with
    | true =>
      simp only
      rw [ih c, List.filter_cons_of_pos (by simpa using h), getLast?_getD_cons]
    | false =>
      simp only
      rw [ih sel, List.filter_cons_of_neg (by simpa using h)]

/-- Selection over a non-empty candidate list with a hint list: the code
computes exactly the spec selection. -/
theorem selectLocation_eq_spec (ls : List String) (first : Candidate) (rest : List Candidate) :
    selectLocation (some ls) (first :: rest) none =
      .ok (some (specSelectedCandidate ls first rest)) := by
  simp only [selectLocation, selectLocation_some_acc]
  rfl

/-- The only error the selection loop can produce is the TypeError marker. -/
theorem selectLocation_error_eq {loc : Option (List String)} :
    ∀ (l : List Candidate) (sel : Option Candidate) (e : String),
      selectLocation loc l sel = .error e → e = candidateMatchError := by
  intro l
  induction l with
  | nil => intro sel e h; cases h
  | cons c cs ih =>
    intro sel e h
    simp only [selectLocation] at h
    cases sel with
    | none => exact ih _ _ h
    | some d =>
      cases hm : candidateMatches loc c with
      | error e2 =>
        rw [hm] at h
        simp only at h
        cases h
        exact candidateMatches_error_eq hm
      | ok b =>
        rw [hm] at h
        cases b <;> simp only at h <;> exact ih _ _ h

/-- With `localities = none` the loop raises as soon as some candidate after
the first carries a non-empty component list. -/
theorem selectLocation_none_error {rest : List Candidate} {c : Candidate}
    (hc : c ∈ rest) (hcomps : c.address_components ≠ []) (sel : Candidate) :
    selectLocation none rest (some sel) = .error candidateMatchError := by
  induction rest generalizing sel with
  | nil => cases hc
  | cons x xs ih =>
    simp only [selectLocation]
    cases hx : x.address_components with
    | nil =>
      have hmem : c ∈ xs := by
        rcases List.mem_cons.mp hc with h | h
        · exact absurd (h ▸ hx) hcomps
        · exact h
      simp only [candidateMatches, hx]
      exact ih hmem sel
    | cons a l =>
      simp only [candidateMatches, hx]

/-- With an empty hint list nothing ever matches: the first candidate is
kept. -/
theorem selectLocation_empty_hints (first : Candidate) (rest : List Candidate) :
    selectLocation (some []) (first :: rest) none = .ok (some first) := by
  rw [selectLocation_eq_spec]
  have h : rest.filter (matchesAnyHint []) = [] := by
    apply List.filter_eq_nil_iff.mpr
    intro c _
    simp [matchesAnyHint, componentMatches]
  rw [specSelectedCandidate, h]
  rfl

/-! Global behaviour of the retry recursion. -/

/-- Every call either finishes in this frame (one service call, prints, no
recursion) or, strictly below the ceiling, recurses with the counter bumped
by one, adding one service call and passing result and traces through. -/
theorem geocode_cases (s : Nat → ServiceResponse) (la : String) (loc : Option (List String))
    (rc : Nat) :
    (∃ r, geocode_address s la loc rc = attemptDone la r) ∨
    (rc < RETRY_COUNTER_CONST ∧
      (geocode_address s la loc rc).result = (geocode_address s la loc (rc + 1)).result ∧
      (geocode_address s la loc rc).calls = (geocode_address s la loc (rc + 1)).calls + 1 ∧
      (geocode_address s la loc rc).traces = (geocode_address s la loc (rc + 1)).traces) := by
  by_cases h : rc < RETRY_COUNTER_CONST
  · cases hs : s rc with
    | ok results =>
      cases hsel : selectLocation loc results none with
      | ok osel =>
        cases osel with
        | some c => exact Or.inl ⟨_, geocode_step_ok_some la hs hsel⟩
        | none => exact Or.inl ⟨_, geocode_step_ok_none la hs hsel⟩
      | error e =>
        refine Or.inr ⟨h, ?_⟩
        rw [geocode_step_ok_error_retry la hs hsel h]
        exact ⟨rfl, rfl, rfl⟩
    | valueError m =>
      exact Or.inl ⟨_, geocode_step_non_retryable la (by rw [hs]; rfl)⟩
    | quotaExceeded m =>
      exact Or.inl ⟨_, geocode_step_non_retryable la (by rw [hs]; rfl)⟩
    | configurationError m =>
      exact Or.inl ⟨_, geocode_step_non_retryable la (by rw [hs]; rfl)⟩
    | parseError m =>
      exact Or.inl ⟨_, geocode_step_non_retryable la (by rw [hs]; rfl)⟩
    | timedOut m =>
      refine Or.inr ⟨h, ?_⟩
      rw [geocode_step_timeout_retry la (Or.inl hs) h]
      exact ⟨rfl, rfl, rfl⟩
    | queryError m =>
      refine Or.inr ⟨h, ?_⟩
      rw [geocode_step_timeout_retry la (Or.inr hs) h]
      exact ⟨rfl, rfl, rfl⟩
    | otherError m =>
      refine Or.inr ⟨h, ?_⟩
      rw [geocode_step_other_retry la hs h]
      exact ⟨rfl, rfl, rfl⟩
  · cases hs : s rc with
    | ok results =>
      cases hsel : selectLocation loc results none with
      | ok osel =>
        cases osel with
        | some c => exact Or.inl ⟨_, geocode_step_ok_some la hs hsel⟩
        | none => exact Or.inl ⟨_, geocode_step_ok_none la hs hsel⟩
      | error e => exact Or.inl ⟨_, geocode_step_ok_error_stop la hs hsel h⟩
    | valueError m =>
      exact Or.inl ⟨_, geocode_step_non_retryable la (by rw [hs]; rfl)⟩
    | quotaExceeded m =>
      exact Or.inl ⟨_, geocode_step_non_retryable la (by rw [hs]; rfl)⟩
    | configurationError m =>
      exact Or.inl ⟨_, geocode_step_non_retryable la (by rw [hs]; rfl)⟩
    | parseError m =>
      exact Or.inl ⟨_, geocode_step_non_retryable la (by rw [hs]; rfl)⟩
    | timedOut m => exact Or.inl ⟨_, geocode_step_timeout_stop la (Or.inl hs) h⟩
    | queryError m => exact Or.inl ⟨_, geocode_step_timeout_stop la (Or.inr hs) h⟩
    | otherError m => exact Or.inl ⟨_, geocode_step_other_stop la hs h⟩

/-- At least one service call is always made. -/
theorem geocode_calls_pos (s : Nat → ServiceResponse) (la : String)
    (loc : Option (List String)) (rc : Nat) : 1 ≤ (geocode_address s la loc rc).calls := by
  rcases geocode_cases s la loc rc with ⟨r, hr⟩ | ⟨_, _, hc, _⟩
  · rw [hr]; exact le_refl 1
  · omega

/-- Bounded recursion: starting at counter `rc`, at most
`RETRY_COUNTER_CONST - rc` retries happen after the first call. -/
theorem geocode_calls_le (s : Nat → ServiceResponse) (la : String)
    (loc : Option (List String)) :
    ∀ (n rc : Nat), RETRY_COUNTER_CONST - rc ≤ n →
      (geocode_address s la loc rc).calls ≤ n + 1 := by
  intro n
  induction n with
  | zero =>
    intro rc h0
    rcases geocode_cases s la loc rc with ⟨r, hr⟩ | ⟨hlt, _, _, _⟩
    · rw [hr]; exact le_refl 1
    · exact absurd hlt (by omega)
  | succ n ih =>
    intro rc hn
    rcases geocode_cases s la loc rc with ⟨r, hr⟩ | ⟨hlt, _, hc, _⟩
    · rw [hr]; exact Nat.le_add_left 1 (n + 1)
    · have := ih (rc + 1) (by omega)
      omega

/-- Exactly one trace block is printed per resolution, and it reports the
final outcome (auxiliary, fuel-indexed form). -/
theorem geocode_traces_aux (s : Nat → ServiceResponse) (la : String)
    (loc : Option (List String)) :
    ∀ (n rc : Nat), RETRY_COUNTER_CONST - rc ≤ n →
      (geocode_address s la loc rc).traces =
        [traceOf la (geocode_address s la loc rc).result] := by
  intro n
  induction n with
  | zero =>
    intro rc h0
    rcases geocode_cases s la loc rc with ⟨r, hr⟩ | ⟨hlt, _, _, _⟩
    · rw [hr]; rfl
    · exact absurd hlt (by omega)
  | succ n ih =>
    intro rc hn
    rcases geocode_cases s la loc rc with ⟨r, hr⟩ | ⟨hlt, hres, _, htr⟩
    · rw [hr]; rfl
    · rw [htr, hres]
      exact ih (rc + 1) (by omega)

/-- Every outcome is either a success dict built from some candidate, or one
of the three failure sources: the zero-candidate message, the internal
TypeError marker, or the message of some service exception. -/
theorem geocode_result_sources (s : Nat → ServiceResponse) (la : String)
    (loc : Option (List String)) :
    ∀ (n rc : Nat), RETRY_COUNTER_CONST - rc ≤ n →
      (∃ c, (geocode_address s la loc rc).result = successResult c) ∨
      ((geocode_address s la loc rc).result =
        failureResult "None location found, please verify your address line") ∨
      ((geocode_address s la loc rc).result = failureResult candidateMatchError) ∨
      (∃ (k : Nat) (m : String), respErrMsg (s k) = some m ∧
        (geocode_address s la loc rc).result = failureResult m) := by
  intro n
  induction n with
  | zero =>
    intro rc h0
    have h : ¬ rc < RETRY_COUNTER_CONST := by omega
    cases hs : s rc with
    | ok results =>
      cases hsel : selectLocation loc results none with
      | ok osel =>
        cases osel with
        | some c => exact Or.inl ⟨c, by rw [geocode_step_ok_some la hs hsel]; rfl⟩
        | none => exact Or.inr (Or.inl (by rw [geocode_step_ok_none la hs hsel]; rfl))
      | error e =>
        refine Or.inr (Or.inr (Or.inl ?_))
        rw [geocode_step_ok_error_stop la hs hsel h,
          selectLocation_error_eq results none e hsel]
        rfl
    | valueError m =>
      exact Or.inr (Or.inr (Or.inr ⟨rc, m, by rw [hs]; rfl,
        by rw [geocode_step_non_retryable la (by rw [hs]; rfl)]; rfl⟩))
    | quotaExceeded m =>
      exact Or.inr (Or.inr (Or.inr ⟨rc, m, by rw [hs]; rfl,
        by rw [geocode_step_non_retryable la (by rw [hs]; rfl)]; rfl⟩))
    | configurationError m =>
      exact Or.inr (Or.inr (Or.inr ⟨rc, m, by rw [hs]; rfl,
        by rw [geocode_step_non_retryable la (by rw [hs]; rfl)]; rfl⟩))
    | parseError m =>
      exact Or.inr (Or.inr (Or.inr ⟨rc, m, by rw [hs]; rfl,
        by rw [geocode_step_non_retryable la (by rw [hs]; rfl)]; rfl⟩))
    | timedOut m =>
      exact Or.inr (Or.inr (Or.inr ⟨rc, m, by rw [hs]; rfl,
        by rw [geocode_step_timeout_stop la (Or.inl hs) h]; rfl⟩))
    | queryError m =>
      exact Or.inr (Or.inr (Or.inr ⟨rc, m, by rw [hs]; rfl,
        by rw [geocode_step_timeout_stop la (Or.inr hs) h]; rfl⟩))
    | otherError m =>
      exact Or.inr (Or.inr (Or.inr ⟨rc, m, by rw [hs]; rfl,
        by rw [geocode_step_other_stop la hs h]; rfl⟩))
  | succ n ih =>
    intro rc hn
    rcases geocode_cases s la loc rc with ⟨r, hr⟩ | ⟨hlt, hres, _, _⟩
    · -- finishing frame: redo the terminal case analysis at this counter
      cases hs : s rc with
      | ok results =>
        cases hsel : selectLocation loc results none with
        | ok osel =>
          cases osel with
          | some c => exact Or.inl ⟨c, by rw [geocode_step_ok_some la hs hsel]; rfl⟩
          | none => exact Or.inr (Or.inl (by rw [geocode_step_ok_none la hs hsel]; rfl))
        | error e =>
          by_cases h : rc < RETRY_COUNTER_CONST
          · rw [geocode_step_ok_error_retry la hs hsel h] at hr
            have hres2 : (geocode_address s la loc rc).result =
                (geocode_address s la loc (rc + 1)).result := by
              rw [geocode_step_ok_error_retry la hs hsel h]
            rw [hres2]
            exact ih (rc + 1) (by omega)
          · refine Or.inr (Or.inr (Or.inl ?_))
            rw [geocode_step_ok_error_stop la hs hsel h,
              selectLocation_error_eq results none e hsel]
            rfl
      | valueError m =>
        exact Or.inr (Or.inr (Or.inr ⟨rc, m, by rw [hs]; rfl,
          by rw [geocode_step_non_retryable la (by rw [hs]; rfl)]; rfl⟩))
      | quotaExceeded m =>
        exact Or.inr (Or.inr (Or.inr ⟨rc, m, by rw [hs]; rfl,
          by rw [geocode_step_non_retryable la (by rw [hs]; rfl)]; rfl⟩))
      | configurationError m =>
        exact Or.inr (Or.inr (Or.inr ⟨rc, m, by rw [hs]; rfl,
          by rw [geocode_step_non_retryable la (by rw [hs]; rfl)]; rfl⟩))
      | parseError m =>
        exact Or.inr (Or.inr (Or.inr ⟨rc, m, by rw [hs]; rfl,
          by rw [geocode_step_non_retryable la (by rw [hs]; rfl)]; rfl⟩))
      | timedOut m =>
        by_cases h : rc < RETRY_COUNTER_CONST
        · have hres2 : (geocode_address s la loc rc).result =
              (geocode_address s la loc (rc + 1)).result := by
            rw [geocode_step_timeout_retry la (Or.inl hs) h]
          rw [hres2]
          exact ih (rc + 1) (by omega)
        · exact Or.inr (Or.inr (Or.inr ⟨rc, m, by rw [hs]; rfl,
            by rw [geocode_step_timeout_stop la (Or.inl hs) h]; rfl⟩))
      | queryError m =>
        by_cases h : rc < RETRY_COUNTER_CONST
        · have hres2 : (geocode_address s la loc rc).result =
              (geocode_address s la loc (rc + 1)).result := by
            rw [geocode_step_timeout_retry la (Or.inr hs) h]
          rw [hres2]
          exact ih (rc + 1) (by omega)
        · exact Or.inr (Or.inr (Or.inr ⟨rc, m, by rw [hs]; rfl,
            by rw [geocode_step_timeout_stop la (Or.inr hs) h]; rfl⟩))
      | otherError m =>
        by_cases h : rc < RETRY_COUNTER_CONST
        · have hres2 : (geocode_address s la loc rc).result =
              (geocode_address s la loc (rc + 1)).result := by
            rw [geocode_step_other_retry la hs h]
          rw [hres2]
          exact ih (rc + 1) (by omega)
        · exact Or.inr (Or.inr (Or.inr ⟨rc, m, by rw [hs]; rfl,
            by rw [geocode_step_other_stop la hs h]; rfl⟩))
    · rw [hres]
      exact ih (rc + 1) (by omega)

/-- If every attempt from `rc` up to (excluding) the ceiling receives a
retryable response, the run reduces to the run at the ceiling plus the
accumulated retries, one extra service call each. -/
theorem geocode_retry_chain (s : Nat → ServiceResponse) (la : String)
    (loc : Option (List String)) :
    ∀ (k rc : Nat), rc + k = RETRY_COUNTER_CONST →
      (∀ n, rc ≤ n → n < RETRY_COUNTER_CONST → retryable (s n) = true) →
      (geocode_address s la loc rc).result =
        (geocode_address s la loc RETRY_COUNTER_CONST).result ∧
      (geocode_address s la loc rc).calls =
        (geocode_address s la loc RETRY_COUNTER_CONST).calls + k := by
  intro k
  induction k with
  | zero =>
    intro rc h0 _
    have h : rc = RETRY_COUNTER_CONST := by omega
    subst h
    exact ⟨rfl, rfl⟩
  | succ k ih =>
    intro rc hk hr
    have hlt : rc < RETRY_COUNTER_CONST := by omega
    have hnext := ih (rc + 1) (by omega) (fun n h1 h2 => hr n (by omega) h2)
    have hret := hr rc (le_refl rc) hlt
    cases hs : s rc <;> rw [hs] at hret <;> simp [retryable] at hret
    case timedOut m =>
      rw [geocode_step_timeout_retry la (Or.inl hs) hlt]
      exact ⟨hnext.1, by simp only [hnext.2]; omega⟩
    case queryError m =>
      rw [geocode_step_timeout_retry la (Or.inr hs) hlt]
      exact ⟨hnext.1, by simp only [hnext.2]; omega⟩
    case otherError m =>
      rw [geocode_step_other_retry la hs hlt]
      exact ⟨hnext.1, by simp only [hnext.2]; omega⟩

/-- Chain for the `localities=None` TypeError: every attempt gets the same
multi-candidate response, the selection loop raises, the bare except clause
sleeps and retries until the ceiling. -/
theorem geocode_typeerror_chain (s : Nat → ServiceResponse) (la : String)
    (a : Candidate) (rest : List Candidate) (c : Candidate)
    (hs : ∀ n, s n = .ok (a :: rest)) (hc : c ∈ rest)
    (hcomps : c.address_components ≠ []) :
    ∀ (k rc : Nat), rc + k = RETRY_COUNTER_CONST →
      (geocode_address s la none rc).result = failureResult candidateMatchError ∧
      (geocode_address s la none rc).calls = k + 1 ∧
      (geocode_address s la none rc).sleeps = k := by
  have hsel : selectLocation none (a :: rest) none = .error candidateMatchError := by
    simp only [selectLocation]
    exact selectLocation_none_error hc hcomps a
  intro k
  induction k with
  | zero =>
    intro rc h0
    have h : ¬ rc < RETRY_COUNTER_CONST := by omega
    rw [geocode_step_ok_error_stop la (hs rc) hsel h]
    exact ⟨rfl, rfl, rfl⟩
  | succ k ih =>
    intro rc hk
    have hlt : rc < RETRY_COUNTER_CONST := by omega
    obtain ⟨h1, h2, h3⟩ := ih (rc + 1) (by omega)
    rw [geocode_step_ok_error_retry la (hs rc) hsel hlt]
    exact ⟨h1, by simp only [h2], by simp only [h3]⟩

/-! Claim theorems for the resolver. -/

/-- C1: for every query (any service behaviour whose exception messages are
non-empty, as every real geopy exception message is), the returned dict has
exactly one of the two shapes: Error empty together with a candidate's
latitude, longitude, formatted address and location type, or Error non-empty
together with Lat=0, Long=0, empty formatted_address and empty
location_type — never a partial mix, on success, zero-candidate,
retry-exhaustion and non-retryable-error paths alike. -/
theorem geocode_outcome_shape (s : Nat → ServiceResponse) (la : String)
    (loc : Option (List String))
    (hmsg : ∀ (n : Nat) (m : String), respErrMsg (s n) = some m → m ≠ "") :
    ((geocode_address s la loc 1).result.Error = "" ∧
      ∃ c, (geocode_address s la loc 1).result = successResult c) ∨
    ((geocode_address s la loc 1).result.Error ≠ "" ∧
      (geocode_address s la loc 1).result.Lat = 0 ∧
      (geocode_address s la loc 1).result.Long = 0 ∧
      (geocode_address s la loc 1).result.formatted_address = "" ∧
      (geocode_address s la loc 1).result.location_type = "") := by
  rcases geocode_result_sources s la loc RETRY_COUNTER_CONST 1 (by decide) with
    ⟨c, h⟩ | h | h | ⟨k, m, hk, h⟩
  · exact Or.inl ⟨by rw [h]; rfl, c, h⟩
  · refine Or.inr ⟨?_, ?_, ?_, ?_, ?_⟩ <;> rw [h] <;> decide
  · refine Or.inr ⟨?_, ?_, ?_, ?_, ?_⟩ <;> rw [h] <;> decide
  · refine Or.inr ⟨?_, ?_, ?_, ?_, ?_⟩ <;> rw [h]
    · exact hmsg k m hk
    all_goals rfl

/-- Witness for C1 at a concrete one-candidate service. -/
theorem geocode_outcome_shape_witness :
    ((geocode_address (fun _ => ServiceResponse.ok [⟨1, 2, "f", "rooftop", []⟩])
        "addr" (some []) 1).result.Error = "" ∧
      ∃ c, (geocode_address (fun _ => ServiceResponse.ok [⟨1, 2, "f", "rooftop", []⟩])
        "addr" (some []) 1).result = successResult c) ∨
    ((geocode_address (fun _ => ServiceResponse.ok [⟨1, 2, "f", "rooftop", []⟩])
        "addr" (some []) 1).result.Error ≠ "" ∧
      (geocode_address (fun _ => ServiceResponse.ok [⟨1, 2, "f", "rooftop", []⟩])
        "addr" (some []) 1).result.Lat = 0 ∧
      (geocode_address (fun _ => ServiceResponse.ok [⟨1, 2, "f", "rooftop", []⟩])
        "addr" (some []) 1).result.Long = 0 ∧
      (geocode_address (fun _ => ServiceResponse.ok [⟨1, 2, "f", "rooftop", []⟩])
        "addr" (some []) 1).result.formatted_address = "" ∧
      (geocode_address (fun _ => ServiceResponse.ok [⟨1, 2, "f", "rooftop", []⟩])
        "addr" (some []) 1).result.location_type = "") :=
  geocode_outcome_shape (fun _ => ServiceResponse.ok [⟨1, 2, "f", "rooftop", []⟩])
    "addr" (some []) (fun _ _ h => Option.noConfusion h)

/-- C2: on a non-empty candidate list the resolver picks the LAST candidate
after the first whose raw components match some hint exactly (later matches
overwrite earlier ones); with no match after the first, the first candidate
stays selected.  `specSelectedCandidate` is that description verbatim. -/
theorem geocode_selects_last_matching (s : Nat → ServiceResponse) (la : String)
    (ls : List String) (first : Candidate) (rest : List Candidate)
    (h1 : s 1 = .ok (first :: rest)) :
    (geocode_address s la (some ls) 1).result =
      successResult (specSelectedCandidate ls first rest) := by
  rw [geocode_step_ok_some la h1 (selectLocation_eq_spec ls first rest)]
  rfl

/-- Witness for C2: candidates [A(no match), B(match), C(match)] select C,
and [A(no match), B(match), C2(no match)] select B, for hint Springfield. -/
theorem geocode_selects_last_matching_witness :
    (geocode_address
        (fun _ => ServiceResponse.ok
          [⟨1, 1, "fa", "ta", [⟨"Shelbyville", "SH"⟩]⟩,
           ⟨2, 2, "fb", "tb", [⟨"Springfield", "SP"⟩]⟩,
           ⟨3, 3, "fc", "tc", [⟨"Ogdenville", "OG"⟩, ⟨"Springfield", "SF"⟩]⟩])
        "q" (some ["Springfield"]) 1).result =
      successResult ⟨3, 3, "fc", "tc", [⟨"Ogdenville", "OG"⟩, ⟨"Springfield", "SF"⟩]⟩ ∧
    (geocode_address
        (fun _ => ServiceResponse.ok
          [⟨1, 1, "fa", "ta", [⟨"Shelbyville", "SH"⟩]⟩,
           ⟨2, 2, "fb", "tb", [⟨"Springfield", "SP"⟩]⟩,
           ⟨3, 3, "fc", "tc", [⟨"Ogdenville", "OG"⟩]⟩])
        "q" (some ["Springfield"]) 1).result =
      successResult ⟨2, 2, "fb", "tb", [⟨"Springfield", "SP"⟩]⟩ :=
  ⟨(geocode_selects_last_matching _ "q" ["Springfield"]
      ⟨1, 1, "fa", "ta", [⟨"Shelbyville", "SH"⟩]⟩
      [⟨2, 2, "fb", "tb", [⟨"Springfield", "SP"⟩]⟩,
       ⟨3, 3, "fc", "tc", [⟨"Ogdenville", "OG"⟩, ⟨"Springfield", "SF"⟩]⟩] rfl).trans
    (by decide),
   (geocode_selects_last_matching _ "q" ["Springfield"]
      ⟨1, 1, "fa", "ta", [⟨"Shelbyville", "SH"⟩]⟩
      [⟨2, 2, "fb", "tb", [⟨"Springfield", "SP"⟩]⟩,
       ⟨3, 3, "fc", "tc", [⟨"Ogdenville", "OG"⟩]⟩] rfl).trans
    (by decide)⟩

/-- C3: the retry ceiling is 5 attempts total, inclusive.  Retryable errors
on attempts 1-4 followed by a successful attempt 5 give success with exactly
5 service calls; retryable errors on all 5 attempts give the failure marker
carrying the message of the attempt-5 error, with exactly 5 service calls
and never more. -/
theorem geocode_retry_ceiling :
    (∀ (s : Nat → ServiceResponse) (la : String) (ls : List String) (c : Candidate),
        (∀ n, 1 ≤ n → n ≤ 4 → retryable (s n) = true) → s 5 = .ok [c] →
        (geocode_address s la (some ls) 1).result = successResult c ∧
        (geocode_address s la (some ls) 1).calls = 5) ∧
    (∀ (s : Nat → ServiceResponse) (la : String) (ls : List String) (m : String),
        (∀ n, 1 ≤ n → n ≤ 5 → retryable (s n) = true) → respErrMsg (s 5) = some m →
        (geocode_address s la (some ls) 1).result = failureResult m ∧
        (geocode_address s la (some ls) 1).calls = 5) := by
  constructor
  · intro s la ls c h14 h5
    obtain ⟨hres, hcalls⟩ := geocode_retry_chain s la (some ls) 4 1 (by decide)
      (fun n hge hlt => h14 n hge (by
        have h : RETRY_COUNTER_CONST = 5 := rfl
        omega))
    have hsel : selectLocation (some ls) [c] none = .ok (some c) := by
      rw [selectLocation_eq_spec]; rfl
    have hstep : geocode_address s la (some ls) RETRY_COUNTER_CONST
        = attemptDone la (successResult c) :=
      geocode_step_ok_some la h5 hsel
    rw [hres, hcalls, hstep]
    exact ⟨rfl, rfl⟩
  · intro s la ls m h15 hm5
    obtain ⟨hres, hcalls⟩ := geocode_retry_chain s la (some ls) 4 1 (by decide)
      (fun n hge hlt => h15 n hge (by
        have h : RETRY_COUNTER_CONST = 5 := rfl
        omega))
    have hret5 : retryable (s 5) = true := h15 5 (by omega) (le_refl 5)
    have hstop : ¬ RETRY_COUNTER_CONST < RETRY_COUNTER_CONST := by omega
    have hstep : geocode_address s la (some ls) RETRY_COUNTER_CONST
        = attemptDone la (failureResult m) := by
      cases hs : s 5 <;> rw [hs] at hret5 hm5 <;> simp [retryable] at hret5 <;>
        simp [respErrMsg] at hm5 <;> subst hm5
      · exact geocode_step_timeout_stop la (Or.inl hs) hstop
      · exact geocode_step_timeout_stop la (Or.inr hs) hstop
      · exact geocode_step_other_stop la hs hstop
    rw [hres, hcalls, hstep]
    exact ⟨rfl, rfl⟩

/-- Witness for C3: four timeouts then success, and five timeouts with a
distinct message on the fifth. -/
theorem geocode_retry_ceiling_witness :
    ((geocode_address (fun n => if n ≤ 4 then ServiceResponse.timedOut "t"
          else ServiceResponse.ok [⟨1, 2, "f", "rooftop", []⟩]) "q" (some []) 1).result
        = successResult ⟨1, 2, "f", "rooftop", []⟩ ∧
      (geocode_address (fun n => if n ≤ 4 then ServiceResponse.timedOut "t"
          else ServiceResponse.ok [⟨1, 2, "f", "rooftop", []⟩]) "q" (some []) 1).calls = 5) ∧
    ((geocode_address (fun n => ServiceResponse.timedOut
          (if n = 5 then "fifth timeout" else "early timeout")) "q" (some []) 1).result
        = failureResult "fifth timeout" ∧
      (geocode_address (fun n => ServiceResponse.timedOut
          (if n = 5 then "fifth timeout" else "early timeout")) "q" (some []) 1).calls = 5) :=
  ⟨geocode_retry_ceiling.1 _ "q" [] ⟨1, 2, "f", "rooftop", []⟩
      (fun n _ h4 => by simp [h4, retryable]) (by rfl),
   geocode_retry_ceiling.2 _ "q" [] "fifth timeout"
      (fun n _ _ => by simp [retryable]) (by rfl)⟩

/-- C4: an exception of the non-retried class on any attempt produces the
failure marker with that message immediately: the frame makes exactly one
service call, whatever retry budget remains. -/
theorem geocode_non_retryable_immediate (s : Nat → ServiceResponse) (la : String)
    (loc : Option (List String)) (rc : Nat) (m : String)
    (h : nonRetryableMsg (s rc) = some m) :
    (geocode_address s la loc rc).result = failureResult m ∧
    (geocode_address s la loc rc).calls = 1 := by
  rw [geocode_step_non_retryable la h]
  exact ⟨rfl, rfl⟩

/-- Witness for C4: quota exceeded on attempt 1, exactly one call. -/
theorem geocode_non_retryable_immediate_witness :
    (geocode_address (fun _ => ServiceResponse.quotaExceeded "OVER_QUERY_LIMIT")
        "q" (some []) 1).result = failureResult "OVER_QUERY_LIMIT" ∧
    (geocode_address (fun _ => ServiceResponse.quotaExceeded "OVER_QUERY_LIMIT")
        "q" (some []) 1).calls = 1 :=
  geocode_non_retryable_immediate _ "q" (some []) 1 "OVER_QUERY_LIMIT" rfl

/-- C5 counterexample: on zero candidates the code produces the message
"None location found, please verify your address line", which is not the
message "no location found, please verify your address line" stated by the
claim. -/
theorem geocode_zero_candidates_message_counterexample :
    (geocode_address (fun _ => ServiceResponse.ok []) "q" (some []) 1).result =
      failureResult "None location found, please verify your address line" ∧
    (geocode_address (fun _ => ServiceResponse.ok []) "q" (some []) 1).result.Error ≠
      "no location found, please verify your address line" := by
  have h := @geocode_step_ok_none (fun _ => ServiceResponse.ok []) 1 [] (some []) "q" rfl rfl
  constructor
  · rw [h]; rfl
  · rw [h]; decide

/-- C5 (amended): a zero-candidate response on any attempt yields the
failure marker whose message is exactly "None location found, please verify
your address line", with Lat=0, Long=0 and empty formatted_address and
location_type. -/
theorem geocode_zero_candidates (s : Nat → ServiceResponse) (la : String)
    (loc : Option (List String)) (rc : Nat) (h : s rc = .ok []) :
    (geocode_address s la loc rc).result =
      failureResult "None location found, please verify your address line" := by
  rw [geocode_step_ok_none la h rfl]
  rfl

/-- Witness for the amended C5. -/
theorem geocode_zero_candidates_witness :
    (geocode_address (fun _ => ServiceResponse.ok []) "addr line" (some ["x"]) 1).result =
      failureResult "None location found, please verify your address line" :=
  geocode_zero_candidates (fun _ => ServiceResponse.ok []) "addr line" (some ["x"]) 1 rfl

/-- C8 counterexample: with a timeout on attempt 1 and success on attempt 2
the resolution takes 2 attempts but emits exactly one trace block, because
the retrying except clauses return the recursive call before reaching the
print statements; so a trace is NOT emitted after every attempt. -/
theorem geocode_trace_per_attempt_counterexample :
    (geocode_address (fun n => if n = 1 then ServiceResponse.timedOut "t"
        else ServiceResponse.ok []) "q" (some []) 1).calls = 2 ∧
    (geocode_address (fun n => if n = 1 then ServiceResponse.timedOut "t"
        else ServiceResponse.ok []) "q" (some []) 1).traces.length = 1 ∧
    (geocode_address (fun n => if n = 1 then ServiceResponse.timedOut "t"
        else ServiceResponse.ok []) "q" (some []) 1).traces.length ≠
      (geocode_address (fun n => if n = 1 then ServiceResponse.timedOut "t"
        else ServiceResponse.ok []) "q" (some []) 1).calls := by
  have h1 := @geocode_step_timeout_retry (fun n => if n = 1 then
      ServiceResponse.timedOut "t" else ServiceResponse.ok []) 1 (some []) "t" "q"
    (Or.inl rfl) (by decide)
  have h2 := @geocode_step_ok_none (fun n => if n = 1 then
      ServiceResponse.timedOut "t" else ServiceResponse.ok []) 2 [] (some []) "q" rfl rfl
  rw [h1, h2]
  decide

/-- C8 (amended): every resolution, successful or failed, emits exactly one
trace block, after the final attempt completes; it carries the query string,
the resolved formatted address (blank on failure), the location type (blank
on failure) and the lat/long pair of the outcome. -/
theorem geocode_single_trace (s : Nat → ServiceResponse) (la : String)
    (loc : Option (List String)) (rc : Nat) :
    (geocode_address s la loc rc).traces =
      [traceOf la (geocode_address s la loc rc).result] :=
  geocode_traces_aux s la loc (RETRY_COUNTER_CONST - rc) rc (le_refl _)

/-- C9: the retry recursion is bounded: starting from retry_counter = 1 the
nesting depth (= number of service calls) is between 1 and
RETRY_COUNTER_CONST = 5, for every service behaviour; termination for every
input is witnessed by `geocode_address` being a total function. -/
theorem geocode_termination_depth (s : Nat → ServiceResponse) (la : String)
    (loc : Option (List String)) :
    1 ≤ (geocode_address s la loc 1).calls ∧
    (geocode_address s la loc 1).calls ≤ RETRY_COUNTER_CONST :=
  ⟨geocode_calls_pos s la loc 1, geocode_calls_le s la loc 4 1 (by decide)⟩

/-- C10: with the default hints `localities=None` and a service returning
two or more candidates where some candidate after the first has a non-empty
component list, the hint iteration raises a TypeError inside the try block,
caught as an unclassified retryable error: the run sleeps and retries until
the ceiling (5 calls, 4 sleeps) and ends in the failure marker carrying the
TypeError — while the same input with hints `[]` succeeds with the first
candidate. -/
theorem geocode_none_localities_turns_success_into_failure
    (s : Nat → ServiceResponse) (la : String) (a : Candidate) (rest : List Candidate)
    (c : Candidate) (hs : ∀ n, s n = .ok (a :: rest)) (hc : c ∈ rest)
    (hcomps : c.address_components ≠ []) :
    (geocode_address s la none 1).result = failureResult candidateMatchError ∧
    (geocode_address s la none 1).calls = 5 ∧
    (geocode_address s la none 1).sleeps = 4 ∧
    (geocode_address s la (some []) 1).result = successResult a := by
  obtain ⟨h1, h2, h3⟩ := geocode_typeerror_chain s la a rest c hs hc hcomps 4 1 (by decide)
  refine ⟨h1, by rw [h2], h3, ?_⟩
  rw [geocode_step_ok_some la (hs 1) (selectLocation_empty_hints a rest)]
  rfl

/-- Witness for C10 at a concrete two-candidate response. -/
theorem geocode_none_localities_witness :
    (geocode_address (fun _ => ServiceResponse.ok
        [⟨1, 1, "fa", "ta", []⟩, ⟨2, 2, "fb", "tb", [⟨"x", "y"⟩]⟩]) "q" none 1).result =
      failureResult candidateMatchError ∧
    (geocode_address (fun _ => ServiceResponse.ok
        [⟨1, 1, "fa", "ta", []⟩, ⟨2, 2, "fb", "tb", [⟨"x", "y"⟩]⟩]) "q" none 1).calls = 5 ∧
    (geocode_address (fun _ => ServiceResponse.ok
        [⟨1, 1, "fa", "ta", []⟩, ⟨2, 2, "fb", "tb", [⟨"x", "y"⟩]⟩]) "q" none 1).sleeps = 4 ∧
    (geocode_address (fun _ => ServiceResponse.ok
        [⟨1, 1, "fa", "ta", []⟩, ⟨2, 2, "fb", "tb", [⟨"x", "y"⟩]⟩]) "q" (some []) 1).result =
      successResult ⟨1, 1, "fa", "ta", []⟩ :=
  geocode_none_localities_turns_success_into_failure _ "q" ⟨1, 1, "fa", "ta", []⟩
    [⟨2, 2, "fb", "tb", [⟨"x", "y"⟩]⟩] ⟨2, 2, "fb", "tb", [⟨"x", "y"⟩]⟩
    (fun _ => rfl) (by decide) (by decide)

/-! The CSV pipeline `process_addresses_from_csv` (source lines 57-113). -/

/-- Configuration constants of the module header (lines 17-27). -/
def ADDRESS_COLUMNS_NAME : List String := ["FULL_ADDRESS", "Localidad", "PROV_NAME", "COUNTRY"]

def LOCALITY_COLUMN_NAMES : List String := ["Localidad", "PROV_NAME"]

def NEW_COLUMNS_NAME : List String := ["Lat", "Long", "Error", "formatted_address", "location_type"]

/-- Input delimiter (line 27): the one-character string ",". -/
def DELIMITER : Char := ','

/-- Python `str.split` on a one-character separator. -/
def splitOnChar (delim : Char) : List Char → List (List Char)
  | [] => [[]]
  | c :: cs =>
    match splitOnChar delim cs with
    | [] => [[]]
    | cur :: rest => if c = delim then [] :: cur :: rest else (c :: cur) :: rest

/-- Drop the characters satisfying `p` from both ends of a list. -/
def dropWhileBoth (p : Char → Bool) (l : List Char) : List Char :=
  ((l.dropWhile p).reverse.dropWhile p).reverse

/-- Python `str.strip(chars)`: remove the given characters from both ends. -/
def pyStrip (p : Char → Bool) (s : String) : String :=
  ⟨dropWhileBoth p s.toList⟩

/-- `h.strip( the quote character )` of line 67. -/
def stripQuotes (s : String) : String := pyStrip (fun c => c == '"') s

/-- `h.strip()` / `s.strip()` of lines 67 and 75. -/
def stripWS (s : String) : String := pyStrip Char.isWhitespace s

/-- Header construction of line 67: the raw first line of the file (as
returned by `next(csvinput)`, i.e. including its newline terminator when
present) is split on the delimiter, and each piece is stripped of quote
characters first and of surrounding whitespace second. -/
def headerFields (rawHeaderLine : String) : List String :=
  (splitOnChar DELIMITER rawHeaderLine.toList).map fun h => stripWS (stripQuotes ⟨h⟩)

/-- Doubling of embedded quote characters done by the `doublequote = True`
dialect when writing a field. -/
def escapeQuotes : List Char → List Char
  | [] => []
  | c :: cs => if c = '"' then '"' :: '"' :: escapeQuotes cs else c :: escapeQuotes cs

/-- Serialisation of one value by the `QUOTE_ALL` writer: the value between
quote characters, embedded quotes doubled. -/
def writeField (v : String) : String :=
  ⟨'"' :: (escapeQuotes v.toList ++ ['"'])⟩

/-- Reader of the content of a quoted cell after its opening quote: a
doubled quote character is the escape of one quote, the single closing quote
must end the cell. -/
def parseQuoted : List Char → Option (List Char)
  | [] => none
  | c :: cs =>
    if c = '"' then
      match cs with
      | [] => some []
      | c2 :: cs2 =>
        if c2 = '"' then (parseQuoted cs2).map (fun v => '"' :: v) else none
    else
      (parseQuoted cs).map (fun v => c :: v)

/-- Reading of one raw cell by the `ga` dialect: `skipinitialspace = True`
skips the spaces that follow the delimiter, then the quoted content is
taken.  Cells outside this quoted well-formed fragment are not modelled
(the spec input contract has all fields quoted). -/
def parseField (cell : String) : Option String :=
  match cell.toList.dropWhile (fun c => c = ' ') with
  | '"' :: cs => (parseQuoted cs).map (fun l => ⟨l⟩)
  | _ => none

/-- Value of a well-formed cell (used to phrase the parsed row). -/
def cellValue (cell : String) : String := (parseField cell).getD ""

/-- Python dict built from `zip(fieldnames, row)` by `DictReader`, looked up
by key: on duplicate keys the later pair wins. -/
def dictGet (record : List (String × String)) (key : String) : Option String :=
  ((record.filter fun kv => kv.1 == key).getLast?).map Prod.snd

/-- The five derived values appended to a row (lines 101-103), in
NEW_COLUMNS_NAME order, stringified as the csv writer does. -/
def locationFields (r : LocationResult) : List String :=
  [toString r.Lat, toString r.Long, r.Error, r.formatted_address, r.location_type]

/-- Body of the row loop (lines 78-113) for one record: build the query
string from ADDRESS_COLUMNS_NAME, the hint list from LOCALITY_COLUMN_NAMES
(COMPONENT_RESTRICTIONS_COLUMNS_NAME is the empty dict, so no restriction is
built), geocode, then emit the original values in fieldname order followed
by the derived values.  A missing column name makes the Python `record[...]`
lookup raise out of any handler, aborting the run: modelled as `none`. -/
def processRecord (svc : Nat → ServiceResponse) (fieldnames : List String)
    (values : List String) : Option (List String) :=
  let record := fieldnames.zip values
  (ADDRESS_COLUMNS_NAME.mapM (dictGet record)).bind fun addr_vals =>
  (LOCALITY_COLUMN_NAMES.mapM (dictGet record)).bind fun localities =>
  (fieldnames.mapM (dictGet record)).map fun temp_row =>
    let line_address := String.intercalate "," addr_vals
    let location := (geocode_address (svc) line_address (some localities) 1).result
    temp_row ++ locationFields location

/-- Rows handed to `writer.writerow`, in order: first the stripped header
with the new column names appended (line 75), then one row per record.  The
service takes the row index first (each row resolves independently), the
attempt number second. -/
def written_value_rows (service : Nat → Nat → ServiceResponse) (rawHeaderLine : String)
    (rawRows : List (List String)) : Option (List (List String)) :=
  let header := headerFields rawHeaderLine
  ((rawRows.enum).mapM fun (p : Nat × List String) =>
      (p.2.mapM parseField).bind fun values => processRecord (service p.1) header values).map
    fun dataRows => ((header ++ NEW_COLUMNS_NAME).map stripWS) :: dataRows

/-- The written output file, as raw text cells: every value row is
serialised by the `QUOTE_ALL` writer. -/
def process_addresses_from_csv (service : Nat → Nat → ServiceResponse)
    (rawHeaderLine : String) (rawRows : List (List String)) :
    Option (List (List String)) :=
  (written_value_rows service rawHeaderLine rawRows).map fun rows =>
    rows.map (List.map writeField)

/-- Modelled from the spec: a "whitespace/quote-stripped" header name in the
sense of the claim wording — all surrounding whitespace and quote
characters removed, in whatever order they surround the name. -/
def specStrippedName (s : String) : String :=
  pyStrip (fun c => c.isWhitespace || c == '"') s

/-- A raw cell is well formed when it is optional spaces followed by a
quoted, quote-escaped value. -/
def wellFormedCell (cell : String) : Prop :=
  ∃ (n : Nat) (v : List Char),
    cell.toList = List.replicate n ' ' ++ ('"' :: (escapeQuotes v ++ ['"']))

/-! Option-monad mapM helpers. -/

theorem mapM_congr_mem {α β : Type} {F G : α → Option β} :
    ∀ (l : List α), (∀ a ∈ l, F a = G a) → l.mapM F = l.mapM G := by
  intro l
  induction l with
  | nil => intro _; rfl
  | cons a as ih =>
    intro h
    simp only [List.mapM_cons]
    rw [h a (by simp), ih (fun x hx => h x (by simp [hx]))]

theorem mapM_eq_map_of {α β : Type} {F : α → Option β} {g : α → β} :
    ∀ (l : List α), (∀ a ∈ l, F a = some (g a)) → l.mapM F = some (l.map g) := by
  intro l
  induction l with
  | nil => intro _; rfl
  | cons a as ih =>
    intro h
    simp only [List.mapM_cons, h a (by simp), ih (fun x hx => h x (by simp [hx])),
      List.map_cons]
    rfl

theorem mapM_length {α β : Type} {F : α → Option β} :
    ∀ (l : List α) (r : List β), l.mapM F = some r → r.length = l.length := by
  intro l
  induction l with
  | nil => intro r h; cases h; rfl
  | cons a as ih =>
    intro r h
    rw [List.mapM_cons] at h
    cases hFa : F a with
    | none => rw [hFa] at h; cases h
    | some b =>
      rw [hFa] at h
      cases hAs : as.mapM F with
      | none => rw [hAs] at h; cases h
      | some r2 =>
        rw [hAs] at h
        cases h
        simp [ih r2 hAs]

theorem mapM_some_spec {α β : Type} {F : α → Option β} :
    ∀ (l : List α), (∀ a ∈ l, (F a).isSome) →
      ∃ r, l.mapM F = some r ∧ r.length = l.length ∧
        ∀ i : Nat, r[i]? = (l[i]?).bind F := by
  intro l
  induction l with
  | nil => intro _; exact ⟨[], rfl, rfl, fun i => by simp⟩
  | cons a as ih =>
    intro h
    obtain ⟨b, hb⟩ := Option.isSome_iff_exists.mp (h a (by simp))
    obtain ⟨r, hr, hrl, hri⟩ := ih (fun x hx => h x (by simp [hx]))
    refine ⟨b :: r, ?_, by simp [hrl], ?_⟩
    · simp only [List.mapM_cons, hb, hr]; rfl
    · intro i
      cases i with
      | zero => simp [hb]
      | succ i => simp only [List.getElem?_cons_succ, hri i]

/-! Lookup in the zipped record dict. -/

theorem dictGet_cons_ne {rest : List (String × String)} {f k v : String}
    (h : (f == k) = false) : dictGet ((f, v) :: rest) k = dictGet rest k := by
  simp [dictGet, List.filter_cons, h]

theorem dictGet_cons_self_of_not_mem {rest : List (String × String)} {f v : String}
    (h : ∀ kv ∈ rest, (kv.1 == f) = false) :
    dictGet ((f, v) :: rest) f = some v := by
  have hfil : rest.filter (fun kv => kv.1 == f) = [] :=
    List.filter_eq_nil_iff.mpr (by intro kv hkv; simp [h kv hkv])
  simp [dictGet, List.filter_cons, hfil]

theorem dictGet_zip_isSome {k : String} :
    ∀ (fns vals : List String), fns.length = vals.length → k ∈ fns →
      (dictGet (fns.zip vals) k).isSome := by
  intro fns
  induction fns with
  | nil => intro vals _ hk; cases hk
  | cons f fs ih =>
    intro vals hlen hk
    cases vals with
    | nil => cases hlen
    | cons v vs =>
      simp only [List.zip_cons_cons]
      cases hfk : (f == k) with
      | true =>
        simp only [dictGet, List.filter_cons, hfk, if_pos trivial]
        cases hgl : (((f, v) :: List.filter (fun kv => kv.1 == k) (fs.zip vs))).getLast? with
        | none => simp [List.getLast?_eq_none_iff] at hgl
        | some x => simp [hgl]
      | false =>
        rw [dictGet_cons_ne hfk]
        have hk2 : k ∈ fs := by
          rcases List.mem_cons.mp hk with h | h
          · exact absurd (h ▸ hfk) (by simp)
          · exact h
        exact ih vs (by simpa using hlen) hk2

theorem dictGet_zip_eq :
    ∀ (fns vals : List String), fns.Nodup → fns.length = vals.length →
      fns.mapM (dictGet (fns.zip vals)) = some vals := by
  intro fns
  induction fns with
  | nil =>
    intro vals _ hlen
    cases vals with
    | nil => rfl
    | cons v vs => cases hlen
  | cons f fs ih =>
    intro vals hnd hlen
    cases vals with
    | nil => cases hlen
    | cons v vs =>
      have hfs : f ∉ fs := (List.nodup_cons.mp hnd).1
      have hnd2 : fs.Nodup := (List.nodup_cons.mp hnd).2
      have hlen2 : fs.length = vs.length := by simpa using hlen
      simp only [List.zip_cons_cons, List.mapM_cons]
      have h1 : dictGet ((f, v) :: fs.zip vs) f = some v := by
        apply dictGet_cons_self_of_not_mem
        intro kv hkv
        have hm : kv.1 ∈ fs := (List.of_mem_zip hkv).1
        simp only [beq_eq_false_iff_ne]
        exact fun he => hfs (he ▸ hm)
      have h2 : fs.mapM (dictGet ((f, v) :: fs.zip vs)) = fs.mapM (dictGet (fs.zip vs)) := by
        apply mapM_congr_mem
        intro x hx
        apply dictGet_cons_ne
        simp only [beq_eq_false_iff_ne]
        exact fun he => hfs (he ▸ hx)
      rw [h1, h2, ih vs hnd2 hlen2]
      rfl

/-! Per-cell read/write lemmas for the dialect. -/

theorem dropWhile_replicate_append {p : Char → Bool} {c : Char} (hc : p c = true) :
    ∀ (n : Nat) (l : List Char),
      (List.replicate n c ++ l).dropWhile p = l.dropWhile p := by
  intro n
  induction n with
  | zero => intro l; rfl
  | succ n ih =>
    intro l
    rw [List.replicate_succ, List.cons_append, List.dropWhile_cons, if_pos hc, ih]

theorem parseQuoted_escape : ∀ (v : List Char), parseQuoted (escapeQuotes v ++ ['"']) = some v := by
  intro v
  induction v with
  | nil => rfl
  | cons c cs ih =>
    by_cases hc : c = '"'
    · subst hc
      rw [show escapeQuotes ('"' :: cs) = '"' :: '"' :: escapeQuotes cs from by
        rw [escapeQuotes.eq_def]; simp]
      rw [List.cons_append, List.cons_append, parseQuoted.eq_def]
      simp [ih]
    · rw [show escapeQuotes (c :: cs) = c :: escapeQuotes cs from by
        rw [escapeQuotes.eq_def]; simp [hc]]
      rw [List.cons_append, parseQuoted.eq_def]
      simp [hc, ih]

theorem parseField_wf {cell : String} {n : Nat} {v : List Char}
    (hcell : cell.toList = List.replicate n ' ' ++ ('"' :: (escapeQuotes v ++ ['"']))) :
    parseField cell = some ⟨v⟩ := by
  unfold parseField
  rw [hcell, dropWhile_replicate_append (by decide), List.dropWhile_cons, if_neg (by decide)]
  simp [parseQuoted_escape]

theorem cellValue_wf {cell : String} {n : Nat} {v : List Char}
    (hcell : cell.toList = List.replicate n ' ' ++ ('"' :: (escapeQuotes v ++ ['"']))) :
    cellValue cell = ⟨v⟩ := by
  rw [cellValue, parseField_wf hcell]
  rfl

/-! Stripping lemmas. -/

theorem dropWhile_head_false {p : Char → Bool} :
    ∀ (l : List Char) (c : Char) (t : List Char), l.dropWhile p = c :: t → p c = false := by
  intro l
  induction l with
  | nil => intro c t h; cases h
  | cons a as ih =>
    intro c t h
    rw [List.dropWhile_cons] at h
    by_cases ha : p a = true
    · rw [if_pos ha] at h; exact ih c t h
    · rw [if_neg ha] at h
      cases h
      exact Bool.not_eq_true _ ▸ ha

theorem dropWhile_idem {p : Char → Bool} (l : List Char) :
    (l.dropWhile p).dropWhile p = l.dropWhile p := by
  cases h : l.dropWhile p with
  | nil => rfl
  | cons c t => rw [List.dropWhile_cons, if_neg (by simp [dropWhile_head_false l c t h])]

theorem dropWhile_suffix_exists {p : Char → Bool} :
    ∀ (l : List Char), ∃ t, t ++ l.dropWhile p = l := by
  intro l
  induction l with
  | nil => exact ⟨[], rfl⟩
  | cons a as ih =>
    by_cases ha : p a = true
    · obtain ⟨t, ht⟩ := ih
      exact ⟨a :: t, by rw [List.dropWhile_cons, if_pos ha, List.cons_append, ht]⟩
    · exact ⟨[], by rw [List.dropWhile_cons, if_neg ha]; rfl⟩

theorem dropWhileBoth_idem (p : Char → Bool) (l : List Char) :
    dropWhileBoth p (dropWhileBoth p l) = dropWhileBoth p l := by
  unfold dropWhileBoth
  obtain ⟨t, ht⟩ := dropWhile_suffix_exists ((l.dropWhile p).reverse)
  have ha : l.dropWhile p = ((l.dropWhile p).reverse.dropWhile p).reverse ++ t.reverse := by
    have := congrArg List.reverse ht
    simpa using this.symm
  have hb : (((l.dropWhile p).reverse.dropWhile p).reverse).dropWhile p =
      ((l.dropWhile p).reverse.dropWhile p).reverse := by
    cases hbr : ((l.dropWhile p).reverse.dropWhile p).reverse with
    | nil => rfl
    | cons c rest =>
      have hlform : l.dropWhile p = c :: (rest ++ t.reverse) := by
        rw [ha, hbr]; rfl
      rw [List.dropWhile_cons, if_neg (by simp [dropWhile_head_false l c _ hlform])]
  rw [hb, List.reverse_reverse, dropWhile_idem]

theorem stripWS_idem (s : String) : stripWS (stripWS s) = stripWS s := by
  unfold stripWS pyStrip
  rw [show (String.mk (dropWhileBoth Char.isWhitespace s.toList)).toList =
    dropWhileBoth Char.isWhitespace s.toList from rfl, dropWhileBoth_idem]

/-- Stripping a well-formed cell leaves exactly the quoted serialisation of
its value: the leading spaces go, the quoted body stays. -/
theorem stripWS_wf {cell : String} {n : Nat} {v : List Char}
    (hcell : cell.toList = List.replicate n ' ' ++ ('"' :: (escapeQuotes v ++ ['"']))) :
    stripWS cell = writeField ⟨v⟩ := by
  unfold stripWS pyStrip dropWhileBoth writeField
  rw [hcell, dropWhile_replicate_append (by decide), List.dropWhile_cons,
    if_neg (by decide)]
  rw [show ('"' :: (escapeQuotes v ++ ['"'])) = ('"' :: escapeQuotes v) ++ ['"'] from rfl,
    List.reverse_append]
  rw [show (['"'] : List Char).reverse = ['"'] from rfl, List.singleton_append,
    List.dropWhile_cons, if_neg (by decide)]
  simp

/-- For a row of well-formed cells, the reader produces the cell values, and
writing those values back out equals python-stripping the raw cells. -/
theorem row_parsed {row : List String} (hwf : ∀ cell ∈ row, wellFormedCell cell) :
    row.mapM parseField = some (row.map cellValue) ∧
    row.map (fun cell => writeField (cellValue cell)) = row.map stripWS := by
  constructor
  · apply mapM_eq_map_of
    intro cell hc
    obtain ⟨n, v, hcell⟩ := hwf cell hc
    rw [parseField_wf hcell, cellValue_wf hcell]
  · apply List.map_congr_left
    intro cell hc
    obtain ⟨n, v, hcell⟩ := hwf cell hc
    rw [cellValue_wf hcell, stripWS_wf hcell]

/-- For a record of well-formed shape the row loop body succeeds and copies
the original values, in fieldname order, in front of the derived values. -/
theorem processRecord_success (svc : Nat → ServiceResponse) (header values : List String)
    (hnd : header.Nodup) (hlen : values.length = header.length)
    (hcols : ∀ cname ∈ ADDRESS_COLUMNS_NAME ++ LOCALITY_COLUMN_NAMES, cname ∈ header) :
    ∃ rest, processRecord svc header values = some (values ++ rest) := by
  have hmain := dictGet_zip_eq header values hnd hlen.symm
  have haddr : (ADDRESS_COLUMNS_NAME.mapM (dictGet (header.zip values))).isSome := by
    obtain ⟨r, hr, _, _⟩ := mapM_some_spec ADDRESS_COLUMNS_NAME
      (fun a ha => dictGet_zip_isSome header values hlen.symm
        (hcols a (List.mem_append_left _ ha)))
    rw [hr]; rfl
  have hloc : (LOCALITY_COLUMN_NAMES.mapM (dictGet (header.zip values))).isSome := by
    obtain ⟨r, hr, _, _⟩ := mapM_some_spec LOCALITY_COLUMN_NAMES
      (fun a ha => dictGet_zip_isSome header values hlen.symm
        (hcols a (List.mem_append_right _ ha)))
    rw [hr]; rfl
  obtain ⟨as, has⟩ := Option.isSome_iff_exists.mp haddr
  obtain ⟨ls, hls⟩ := Option.isSome_iff_exists.mp hloc
  refine ⟨locationFields
    ((geocode_address svc (String.intercalate "," as) (some ls) 1).result), ?_⟩
  simp only [processRecord]
  rw [has, hls, hmain]
  rfl

/-- C6: one output data row per input data row, in input order, whose first
cells are the original field values, space-trimmed, in the written file. -/
theorem process_rows_one_to_one (service : Nat → Nat → ServiceResponse)
    (rawHeaderLine : String) (rawRows : List (List String))
    (hnd : (headerFields rawHeaderLine).Nodup)
    (hcols : ∀ cname ∈ ADDRESS_COLUMNS_NAME ++ LOCALITY_COLUMN_NAMES,
      cname ∈ headerFields rawHeaderLine)
    (hlen : ∀ row ∈ rawRows, row.length = (headerFields rawHeaderLine).length)
    (hwf : ∀ row ∈ rawRows, ∀ cell ∈ row, wellFormedCell cell) :
    ∃ out, process_addresses_from_csv service rawHeaderLine rawRows = some out ∧
      out.length = rawRows.length + 1 ∧
      ∀ i : Nat,
        ((out.drop 1)[i]?).map (fun r => r.take (headerFields rawHeaderLine).length) =
          (rawRows[i]?).map (fun row => row.map stripWS) := by
  have hF : ∀ p ∈ rawRows.enum, ((fun (p : Nat × List String) =>
      (p.2.mapM parseField).bind fun values =>
        processRecord (service p.1) (headerFields rawHeaderLine) values) p).isSome := by
    intro p hp
    have hrow : p.2 ∈ rawRows := List.snd_mem_of_mem_enum hp
    obtain ⟨hparse, _⟩ := row_parsed (hwf p.2 hrow)
    obtain ⟨rest, hrest⟩ := processRecord_success (service p.1) (headerFields rawHeaderLine)
      (p.2.map cellValue) hnd (by simp [hlen p.2 hrow]) hcols
    dsimp only
    rw [hparse]
    rw [show Option.bind (some (p.2.map cellValue)) (fun values =>
        processRecord (service p.1) (headerFields rawHeaderLine) values) =
        processRecord (service p.1) (headerFields rawHeaderLine) (p.2.map cellValue) from rfl]
    rw [hrest]
    rfl
  obtain ⟨dataRows, hmapM, hlen2, hidx⟩ := mapM_some_spec rawRows.enum hF
  refine ⟨(((headerFields rawHeaderLine ++ NEW_COLUMNS_NAME).map stripWS) ::
    dataRows).map (List.map writeField), ?_, ?_, ?_⟩
  · simp only [process_addresses_from_csv, written_value_rows]
    rw [hmapM]
    rfl
  · simp only [List.map_cons, List.length_cons, List.length_map]
    rw [hlen2, List.enum_length]
  · intro i
    have hdrop : ((((headerFields rawHeaderLine ++ NEW_COLUMNS_NAME).map stripWS) ::
        dataRows).map (List.map writeField)).drop 1 = dataRows.map (List.map writeField) := rfl
    rw [hdrop, List.getElem?_map, hidx i, List.getElem?_enum]
    cases hri : rawRows[i]? with
    | none => rfl
    | some row =>
      have hrow : row ∈ rawRows := List.getElem?_mem hri
      obtain ⟨hparse, hwrite⟩ := row_parsed (hwf row hrow)
      obtain ⟨rest, hrest⟩ := processRecord_success (service i) (headerFields rawHeaderLine)
        (row.map cellValue) hnd (by simp [hlen row hrow]) hcols
      simp only [Option.map_some']
      rw [show Option.bind (some (i, row)) (fun (p : Nat × List String) =>
          (p.2.mapM parseField).bind fun values =>
            processRecord (service p.1) (headerFields rawHeaderLine) values) =
          (row.mapM parseField).bind fun values =>
            processRecord (service i) (headerFields rawHeaderLine) values from rfl]
      rw [hparse]
      rw [show Option.bind (some (row.map cellValue)) (fun values =>
          processRecord (service i) (headerFields rawHeaderLine) values) =
          processRecord (service i) (headerFields rawHeaderLine) (row.map cellValue) from rfl]
      rw [hrest]
      simp only [Option.map_some']
      have htake : ((row.map cellValue ++ rest).map writeField).take
          (headerFields rawHeaderLine).length = (row.map cellValue).map writeField := by
        rw [← List.map_take]
        have hklen : (row.map cellValue).length = (headerFields rawHeaderLine).length := by
          simp [hlen row hrow]
        rw [← hklen, List.take_left]
      rw [htake, List.map_map]
      rw [show (row.map (writeField ∘ cellValue)) =
        (row.map fun cell => writeField (cellValue cell)) from rfl, hwrite]

/-- C7 (amended): whenever the pipeline produces output, the header row it
writes is the input header as the code strips it (quote characters first,
surrounding whitespace second) followed by exactly the five derived column
names, and it is written exactly once, before all data rows (one per input
row). -/
theorem header_appended_once (service : Nat → Nat → ServiceResponse)
    (rawHeaderLine : String) (rawRows : List (List String)) (out : List (List String))
    (h : written_value_rows service rawHeaderLine rawRows = some out) :
    ∃ dataRows, out = (headerFields rawHeaderLine ++ NEW_COLUMNS_NAME) :: dataRows ∧
      dataRows.length = rawRows.length := by
  have hmap : (headerFields rawHeaderLine ++ NEW_COLUMNS_NAME).map stripWS =
      headerFields rawHeaderLine ++ NEW_COLUMNS_NAME := by
    rw [List.map_append]
    have ha : (headerFields rawHeaderLine).map stripWS = headerFields rawHeaderLine := by
      rw [headerFields, List.map_map]
      apply List.map_congr_left
      intro x _
      exact stripWS_idem _
    have hb : NEW_COLUMNS_NAME.map stripWS = NEW_COLUMNS_NAME := by decide
    rw [ha, hb]
  simp only [written_value_rows] at h
  cases hm : (rawRows.enum).mapM (fun (p : Nat × List String) =>
      (p.2.mapM parseField).bind fun values =>
        processRecord (service p.1) (headerFields rawHeaderLine) values) with
  | none => rw [hm] at h; cases h
  | some dataRows =>
    rw [hm] at h
    simp only [Option.map_some'] at h
    have h2 := Option.some.inj h
    have hl := mapM_length (rawRows.enum) dataRows hm
    rw [List.enum_length] at hl
    exact ⟨dataRows, by rw [← h2, hmap], hl⟩

/-- C7 counterexample: for the in-contract header line with quoted names and
a newline terminator, the written header is NOT the whitespace/quote-stripped
input header — the strip order of the code (quotes before whitespace) leaves
the trailing quote of the last name in place. -/
theorem header_strip_counterexample :
    written_value_rows (fun _ _ => ServiceResponse.ok []) "\"A\",\"B\"\n" [] =
      some [["A", "B\"", "Lat", "Long", "Error", "formatted_address", "location_type"]] ∧
    ¬ (["A", "B\"", "Lat", "Long", "Error", "formatted_address", "location_type"] : List String) =
      ((splitOnChar DELIMITER ("\"A\",\"B\"\n").toList).map fun h => specStrippedName ⟨h⟩) ++
        NEW_COLUMNS_NAME := by
  constructor
  · rfl
  · decide

/-- Witness for the amended C7 on an unquoted header with no data rows. -/
theorem header_appended_once_witness :
    ∃ dataRows,
      [["A", "B", "Lat", "Long", "Error", "formatted_address", "location_type"]] =
        (headerFields "A,B\n" ++ NEW_COLUMNS_NAME) :: dataRows ∧
      dataRows.length = ([] : List (List String)).length :=
  header_appended_once (fun _ _ => ServiceResponse.ok []) "A,B\n" []
    [["A", "B", "Lat", "Long", "Error", "formatted_address", "location_type"]] rfl

/-- Witness for C6 on a one-row file whose cells carry delimiter padding. -/
theorem process_rows_one_to_one_witness :
    ∃ out, process_addresses_from_csv (fun _ _ => ServiceResponse.ok [])
        "FULL_ADDRESS,Localidad,PROV_NAME,COUNTRY\n"
        [[" \"12 Main St\"", "\"Springfield\"", "\"BA\"", "\"AR\""]] = some out ∧
      out.length = 2 ∧
      ((out.drop 1)[0]?).map (fun r => r.take
          (headerFields "FULL_ADDRESS,Localidad,PROV_NAME,COUNTRY\n").length) =
        some ["\"12 Main St\"", "\"Springfield\"", "\"BA\"", "\"AR\""] := by
  obtain ⟨out, h1, h2, h3⟩ := process_rows_one_to_one (fun _ _ => ServiceResponse.ok [])
    "FULL_ADDRESS,Localidad,PROV_NAME,COUNTRY\n"
    [[" \"12 Main St\"", "\"Springfield\"", "\"BA\"", "\"AR\""]]
    (by decide) (by decide)
    (by
      intro row hrow
      simp only [List.mem_singleton] at hrow
      subst hrow
      decide)
    (by
      intro row hrow cell hcell
      simp only [List.mem_singleton] at hrow
      subst hrow
      simp only [List.mem_cons, List.not_mem_nil, or_false] at hcell
      rcases hcell with h | h | h | h
      · exact h ▸ ⟨1, "12 Main St".toList, by decide⟩
      · exact h ▸ ⟨0, "Springfield".toList, by decide⟩
      · exact h ▸ ⟨0, "BA".toList, by decide⟩
      · exact h ▸ ⟨0, "AR".toList, by decide⟩)
  exact ⟨out, h1, h2, (h3 0).trans (by decide)⟩
